import Mathlib

/-!
# wireproxy: address parsing, resolution and forwarding routines

A shallow embedding of `routine.go`.  Go strings are byte sequences; the
standard-library functions the routines call (`net.SplitHostPort`,
`strconv.Atoi`, `math/rand.Shuffle`, the dispatcher of `netip.ParseAddr`)
are transcribed from the Go sources, and the network collaborators (host
lookup, dialing, the stream copy) enter as parameters.
-/

namespace Wireproxy

/-! ## Strings and errors -/

/-- A Go string: an immutable sequence of bytes, each a number below 256. -/
abbrev GoString := List Nat

/-- Every element of the sequence is a byte. -/
def wellFormed (s : GoString) : Prop := ∀ b ∈ s, b < 256

instance (s : GoString) : Decidable (wellFormed s) := by
  unfold wellFormed; infer_instance

/-- The bytes of an ASCII literal. -/
def ascii (s : String) : GoString := s.toList.map Char.toNat

/-- The reasons `net.SplitHostPort` gives in a `net.AddrError`: "missing port in
address", "too many colons in address", "missing ] in address", "unexpected [ in
address", "unexpected ] in address". -/
inductive AddrWhy
  | missingPort
  | tooManyColons
  | missingBracket
  | unexpectedOpen
  | unexpectedClose
  deriving DecidableEq, Repr

/-- The two `strconv` failure kinds, `ErrSyntax` and `ErrRange`. -/
inductive NumKind
  | syntaxErr
  | rangeErr
  deriving DecidableEq, Repr

/-- The `Func` field of a `strconv.NumError`. -/
inductive NumFn
  | fnAtoi
  | fnParseInt
  | fnParseUint
  deriving DecidableEq, Repr

/-- Error values the routines produce or pass on. -/
inductive Err
  /-- `&net.AddrError{Err: why, Addr: addr}` -/
  | addrError (why : AddrWhy) (addr : GoString)
  /-- `&strconv.NumError{Func: fn, Num: num, Err: kind}` -/
  | numError (fn : NumFn) (num : GoString) (kind : NumKind)
  /-- `errors.New(msg)` -/
  | errorString (msg : GoString)
  /-- `&net.OpError{Op: op, Err: err}` -/
  | opError (op : GoString) (err : Err)
  /-- `parseAddrError{in: input, msg: msg}` of `netip` -/
  | parseAddrError (input : GoString) (msg : GoString)
  /-- an error value produced by a collaborator (lookup, dial, copy) -/
  | external (code : Nat)
  deriving DecidableEq, Repr

/-! ## `net.SplitHostPort` -/

/-- `bytealg.IndexByteString`: index of the first occurrence of `c`, `none` for -1. -/
def IndexByteString : GoString → Nat → Option Nat
  | [], _ => none
  | b :: s, c => if b = c then some 0 else (IndexByteString s c).map (· + 1)

/-- The loop of `last`: `i` candidates remain, the next index looked at is `i - 1`. -/
def lastLoop (s : GoString) (b : Nat) : Nat → Option Nat
  | 0 => none
  | i + 1 => if s[i]? = some b then some i else lastLoop s b i

/-- Index of the last occurrence of `b` in `s`, `none` for -1. -/
def last (s : GoString) (b : Nat) : Option Nat := lastLoop s b s.length

/-- The two final bracket checks of `SplitHostPort` and its successful return:
`j` and `k` are the positions from which `[` resp. `]` must not occur, `i` is
the index of the last colon. -/
def splitTail (hostport : GoString) (i j k : Nat) (host : GoString) :
    Except Err (GoString × GoString) :=
  if (IndexByteString (hostport.drop j) 91).isSome then
    .error (.addrError .unexpectedOpen hostport)
  else if (IndexByteString (hostport.drop k) 93).isSome then
    .error (.addrError .unexpectedClose hostport)
  else
    .ok (host, hostport.drop (i + 1))

/-- `net.SplitHostPort`: splits "host:port", "[host]:port" into host and port. -/
def SplitHostPort (hostport : GoString) : Except Err (GoString × GoString) :=
  match last hostport 58 with
  | none => .error (.addrError .missingPort hostport)
  | some i =>
    if hostport[0]? = some 91 then
      match IndexByteString hostport 93 with
      | none => .error (.addrError .missingBracket hostport)
      | some end_ =>
        if end_ + 1 = hostport.length then
          .error (.addrError .missingPort hostport)
        else if end_ + 1 = i then
          splitTail hostport i 1 (end_ + 1) ((hostport.take end_).drop 1)
        else if hostport[end_ + 1]? = some 58 then
          .error (.addrError .tooManyColons hostport)
        else
          .error (.addrError .missingPort hostport)
    else
      let host := hostport.take i
      if (IndexByteString host 58).isSome then
        .error (.addrError .tooManyColons hostport)
      else
        splitTail hostport i 0 0 host

/-! ## `strconv.Atoi` -/

/-- The platform's `int` width (`strconv.IntSize`). -/
inductive IntSize
  | w32
  | w64
  deriving DecidableEq, Repr

/-- Number of bits of `int`. -/
def IntSize.bits : IntSize → Nat
  | .w32 => 32
  | .w64 => 64

/-- Conversion to a signed integer of `bits` bits (two's complement wrap). -/
def wrapSigned (bits : Nat) (x : Int) : Int :=
  (x + 2 ^ (bits - 1)) % 2 ^ bits - 2 ^ (bits - 1)

/-- The digit loop of the fast path of `Atoi`: `ch -= 48` on a byte, then
`ch > 9` is a syntax error (`none`).  At most 18 digits are read, so `n` stays
below the `int` range and no wrap occurs. -/
def atoiLoop : GoString → Int → Option Int
  | [], n => some n
  | ch :: rest, n =>
    let d := (ch + 256 - 48) % 256
    if d > 9 then none else atoiLoop rest (n * 10 + d)

/-- `lower(c)`, that is `c | (120 - 88)`. -/
def lower (c : Nat) : Nat := c ||| 32

/-- The digit value `ParseUint` gives a byte, `none` in the `default` case. -/
def parseUintDigit (c : Nat) : Option Nat :=
  if 48 ≤ c ∧ c ≤ 57 then some ((c + 256 - 48) % 256)
  else if 97 ≤ lower c ∧ lower c ≤ 122 then some ((lower c + 256 - 97 + 10) % 256)
  else none

/-- The cutoff of `ParseUint` in base 10: `maxUint64/10 + 1`. -/
def cutoff10 : Nat := (2 ^ 64 - 1) / 10 + 1

/-- The loop of `ParseUint` in base 10 over `uint64` accumulator `n`. -/
def parseUintLoop (maxVal : Nat) : GoString → Nat → Nat × Option NumKind
  | [], n => (n, none)
  | c :: rest, n =>
    match parseUintDigit c with
    | none => (0, some .syntaxErr)
    | some d =>
      if d ≥ 10 then (0, some .syntaxErr)
      else if n ≥ cutoff10 then (maxVal, some .rangeErr)
      else
        let n10 := n * 10 % 2 ^ 64
        let n1 := (n10 + d) % 2 ^ 64
        if n1 < n10 ∨ n1 > maxVal then (maxVal, some .rangeErr)
        else parseUintLoop maxVal rest n1

/-- `strconv.ParseUint(s, 10, 0)`: the value and the kind of the `NumError`, if any. -/
def ParseUint (w : IntSize) (s : GoString) : Nat × Option NumKind :=
  if s = [] then (0, some .syntaxErr)
  else parseUintLoop (2 ^ w.bits - 1) s 0

/-- `strconv.ParseInt(s, 10, 0)`. -/
def ParseInt (w : IntSize) (s : GoString) : Int × Option Err :=
  if s = [] then (0, some (.numError .fnParseInt s .syntaxErr))
  else
    let s0 := s
    let neg := decide (s[0]? = some 45)
    let s1 := if s[0]? = some 43 then s.drop 1 else if s[0]? = some 45 then s.drop 1 else s
    match ParseUint w s1 with
    | (_, some .syntaxErr) => (0, some (.numError .fnParseInt s0 .syntaxErr))
    | (un, _) =>
      let cutoff : Nat := 2 ^ (w.bits - 1)
      if !neg ∧ un ≥ cutoff then
        ((cutoff : Int) - 1, some (.numError .fnParseInt s0 .rangeErr))
      else if neg ∧ un > cutoff then
        (-(cutoff : Int), some (.numError .fnParseInt s0 .rangeErr))
      else
        let n := wrapSigned 64 un
        (if neg then wrapSigned 64 (-n) else n, none)

/-- The assignment `nerr.Func = fnAtoi` on a `NumError`. -/
def setFuncAtoi : Err → Err
  | .numError _ num kind => .numError .fnAtoi num kind
  | e => e

/-- `strconv.Atoi`: the value and the error (`none` for nil). -/
def Atoi (w : IntSize) (s : GoString) : Int × Option Err :=
  let sLen := s.length
  if (w = .w32 ∧ (0 < sLen ∧ sLen < 10)) ∨ (w = .w64 ∧ (0 < sLen ∧ sLen < 19)) then
    let s0 := s
    let signed := decide (s[0]? = some 45 ∨ s[0]? = some 43)
    let s1 := if signed then s.drop 1 else s
    if signed ∧ s1.length < 1 then (0, some (.numError .fnAtoi s0 .syntaxErr))
    else
      match atoiLoop s1 0 with
      | none => (0, some (.numError .fnAtoi s0 .syntaxErr))
      | some n => (if s0[0]? = some 45 then -n else n, none)
  else
    match ParseInt w s with
    | (i64, err) => (wrapSigned w.bits i64, err.map setFuncAtoi)

/-! ## `parseAddressPort` -/

/-- The configured target: `address string`, `port uint16`. -/
structure addressPort where
  address : GoString
  port : Nat
  deriving DecidableEq, Repr

/-- The error of `parseAddressPort` for a bad port:
`&net.OpError{Op: "dial", Err: errors.New("port must be numeric")}`. -/
def portError : Err :=
  .opError (ascii "dial") (.errorString (ascii "port must be numeric"))

/-- `parseAddressPort`: split the endpoint, convert the port with `Atoi`, check
the range, convert to `uint16`. -/
def parseAddressPort (w : IntSize) (endpoint : GoString) : Except Err addressPort :=
  match SplitHostPort endpoint with
  | .error err => .error err
  | .ok (name, sport) =>
    match Atoi w sport with
    | (port, err) =>
      if err ≠ none ∨ port < 0 ∨ port > 65535 then .error portError
      else .ok { address := name, port := (port % 65536).toNat }

/-- The endpoint grammar of the spec, `host:port`: either a host and a port free of
colons and brackets around one colon, or a bracketed host (which may hold colons)
followed by a colon and such a port. -/
def hostPortForm (e host port : GoString) : Prop :=
  (e = host ++ 58 :: port ∧ 58 ∉ host ∧ 91 ∉ host ∧ 93 ∉ host ∧
      58 ∉ port ∧ 91 ∉ port ∧ 93 ∉ port) ∨
  (e = 91 :: (host ++ 93 :: 58 :: port) ∧ 91 ∉ host ∧ 93 ∉ host ∧
      58 ∉ port ∧ 91 ∉ port ∧ 93 ∉ port)

/-- A decimal digit byte, 48 to 57. -/
def isDigit (b : Nat) : Bool := decide (48 ≤ b ∧ b ≤ 57)

/-- The number a sequence of digit bytes denotes, most significant digit first. -/
def digitsValue (ds : GoString) : Nat := ds.foldl (fun n b => n * 10 + (b - 48)) 0

/-- The number an unsigned decimal numeral denotes: one digit at least, digits only. -/
def unsignedValue (ds : GoString) : Option Nat :=
  if ds ≠ [] ∧ ds.all isDigit = true then some (digitsValue ds) else none

/-- The integer a string denotes: an optional sign `+` (43) or `-` (45) followed
by an unsigned decimal numeral; `none` when the string is no such numeral. -/
def denotes : GoString → Option Int
  | 43 :: ds => (unsignedValue ds).map fun (v : Nat) => (v : Int)
  | 45 :: ds => (unsignedValue ds).map fun (v : Nat) => -(v : Int)
  | ds => (unsignedValue ds).map fun (v : Nat) => (v : Int)

/-- The decimal digits of `p`, most significant first, without leading zeros
(`0` is the single digit 48). -/
def decimal (p : Nat) : GoString :=
  if p = 0 then [48] else (Nat.digits 10 p).reverse.map (· + 48)

/-! ## The resolver -/

/-- The zone pointer of a `netip.Addr`: `z0` (the zero Addr), `z4`, `z6noz`, or an
interned IPv6 zone name. -/
inductive Zone
  | z0
  | z4
  | z6noz
  | zone (name : GoString)
  deriving DecidableEq, Repr

/-- `netip.Addr`: a 128-bit address and its zone. -/
structure Addr where
  addr : Nat
  z : Zone
  deriving DecidableEq, Repr

/-- The zero value `netip.Addr{}`. -/
def Addr.zero : Addr := { addr := 0, z := .z0 }

/-- `netip.AddrPort`. -/
structure AddrPort where
  ip : Addr
  port : Nat
  deriving DecidableEq, Repr

/-- The scan of `netip.ParseAddr`: the first `.` (46) sends the whole string to
`parseIPv4`, the first `:` (58) to `parseIPv6`, a `%` (37) before either is the
error "missing IPv6 address", and a string with none of them the error "unable
to parse IP".  The two sub-parsers are parameters. -/
def parseAddrScan (parseIPv4 parseIPv6 : GoString → Except Err Addr) (s : GoString) :
    GoString → Except Err Addr
  | [] => .error (.parseAddrError s (ascii "unable to parse IP"))
  | c :: rest =>
    if c = 46 then parseIPv4 s
    else if c = 58 then parseIPv6 s
    else if c = 37 then .error (.parseAddrError s (ascii "missing IPv6 address"))
    else parseAddrScan parseIPv4 parseIPv6 s rest

/-- `netip.ParseAddr` over its two sub-parsers. -/
def ParseAddr (parseIPv4 parseIPv6 : GoString → Except Err Addr) (s : GoString) :
    Except Err Addr :=
  parseAddrScan parseIPv4 parseIPv6 s s

/-- `net.TCPAddr`. -/
structure TCPAddr where
  IP : List Nat
  Port : Int
  Zone : GoString
  deriving DecidableEq, Repr

/-- The operations of `*netstack.Net` the routines use; a dialled connection is
named by a number. -/
structure Netstack where
  LookupContextHost : GoString → Except Err (List GoString)
  DialTCP : TCPAddr → Except Err Nat

/-- `VirtualTun`: the netstack network and the DNS setting. -/
structure VirtualTun where
  tnet : Netstack
  systemDNS : Bool

/-- What the routines take from the host and the runtime: the system resolver
(`net.DefaultResolver.LookupHost`), `net.DialTCP`, `netip.ParseAddr`, the draws
of the random source (`int31n i` is the value drawn for loop index `i`), and the
conversion `TCPAddrFromAddrPort`, a helper of this package that `routine.go`
calls and does not define. -/
structure Host where
  LookupHost : GoString → Except Err (List GoString)
  DialTCP : TCPAddr → Except Err Nat
  ParseAddr : GoString → Except Err Addr
  int31n : Nat → Nat
  TCPAddrFromAddrPort : AddrPort → TCPAddr

/-- `VirtualTun.LookupAddr`: the system resolver or the one of the netstack. -/
def LookupAddr (host : Host) (d : VirtualTun) (name : GoString) :
    Except Err (List GoString) :=
  if d.systemDNS then host.LookupHost name else d.tnet.LookupContextHost name

/-- The closure given to `rand.Shuffle`: `addrs[i], addrs[j] = addrs[j], addrs[i]`
(an index out of range leaves the list as it is; `Shuffle` produces none). -/
def swap (addrs : List GoString) (i j : Nat) : List GoString :=
  match addrs[i]?, addrs[j]? with
  | some a, some b => (addrs.set i b).set j a
  | _, _ => addrs

/-- The loop of `rand.Shuffle` from index `i` down to 1: `j` is drawn in
`[0, i]`, then `swap(i, j)`. -/
def shuffleFrom (draw : Nat → Nat) : Nat → List GoString → List GoString
  | 0, addrs => addrs
  | i + 1, addrs => shuffleFrom draw i (swap addrs (i + 1) (draw (i + 1) % (i + 2)))

/-- `rand.Shuffle(n, swap)`: Fisher-Yates from `n - 1` down to 1. -/
def Shuffle (draw : Nat → Nat) (n : Nat) (addrs : List GoString) : List GoString :=
  shuffleFrom draw (n - 1) addrs

/-- The `for _, saddr := range addrs` loop of `ResolveAddrWithContext` on the
variables `addr` and `err`: parse, `break` on success. -/
def scanAddrs (parse : GoString → Except Err Addr) :
    List GoString → Addr × Option Err → Addr × Option Err
  | [], st => st
  | saddr :: rest, _ =>
    match parse saddr with
    | .ok a => (a, none)
    | .error e => scanAddrs parse rest (Addr.zero, some e)

/-- `VirtualTun.ResolveAddrWithContext`. -/
def ResolveAddrWithContext (host : Host) (d : VirtualTun) (name : GoString) :
    Except Err Addr :=
  match LookupAddr host d name with
  | .error err => .error err
  | .ok addrs =>
    let size := addrs.length
    if size = 0 then .error (.errorString (ascii "no address found for: " ++ name))
    else
      match scanAddrs host.ParseAddr (Shuffle host.int31n size addrs) (Addr.zero, none) with
      | (_, some err) => .error err
      | (addr, none) => .ok addr

/-- `VirtualTun.resolveToAddrPort`. -/
def resolveToAddrPort (host : Host) (d : VirtualTun) (endpoint : addressPort) :
    Except Err AddrPort :=
  match ResolveAddrWithContext host d endpoint.address with
  | .error err => .error err
  | .ok addr => .ok { ip := addr, port := endpoint.port }

/-- Whether a parse result is a success. -/
def parses : Except Err Addr → Bool
  | .ok _ => true
  | .error _ => false

/-! ## Streams, logs and the forwarding routines -/

/-- A SOCKS5 request as the bind handler receives it. -/
structure Request where
  command : Nat
  destAddr : GoString
  destPort : Nat
  deriving DecidableEq, Repr

/-- The lines the two loggers receive, by format string. -/
inductive LogLine
  /-- `logger.Printf("bind: %+v\n", request)` -/
  | bind (request : Request)
  /-- `logger.Printf("Forward %s:%d -> %s:%d\n", ...)` -/
  | forward (raddr : addressPort) (tcpAddr : TCPAddr)
  /-- `errorLogger.Printf("Cannot forward traffic: %s\n", err.Error())` -/
  | cannotForward (err : Err)
  /-- `errorLogger.Printf("TCP Server Tunnel to %s: %s\n", target, err.Error())` -/
  | serverTunnel (target : Option AddrPort) (err : Err)
  /-- `errorLogger.Printf("TCP Client Tunnel to %s: %s\n", target, err.Error())` -/
  | clientTunnel (target : Option AddrPort) (err : Err)
  deriving DecidableEq, Repr

/-- A started goroutine `go connForward(bufSize, from, to)`. -/
structure ForwardTask where
  bufSize : Int
  from_ : Nat
  to_ : Nat
  deriving DecidableEq, Repr

/-- The state the routines act on: which streams have been closed, what each
writer has received, the lines of `logger` and `errorLogger`, and the
goroutines started so far.  Streams and writers are named by numbers. -/
structure World where
  closed : Nat → Bool
  written : Nat → List Nat
  logger : List LogLine
  errorLogger : List LogLine
  goroutines : List ForwardTask

/-- The error a `net.Conn` returns from `Close` when it is closed already. -/
def errClosed : Err := .errorString (ascii "use of closed network connection")

/-- The method `Close` of a stream: the stream is closed afterwards; on a stream
closed before, the call returns an error and changes nothing. -/
def Close (w : World) (c : Nat) : World × Option Err :=
  ({ w with closed := fun x => if x = c then true else w.closed x },
    if w.closed c then some errClosed else none)

/-- `connForward`: `copyBuffer w dst src n` stands for `io.CopyBuffer(to, from,
buf)` with a buffer of `n` bytes and yields the state after the copy and its
error.  `none` is a panic: `make` with a negative size, `io.CopyBuffer` with an
empty buffer. -/
def connForward (copyBuffer : World → Nat → Nat → Nat → World × Option Err)
    (w : World) (bufSize : Int) (from_ to_ : Nat) : Option World :=
  if bufSize < 0 then none
  else if bufSize.toNat = 0 then none
  else
    match copyBuffer w to_ from_ bufSize.toNat with
    | (w1, err) =>
      let w2 : World :=
        match err with
        | some e => { w1 with errorLogger := w1.errorLogger ++ [.cannotForward e] }
        | none => w1
      let w3 := (Close w2 from_).1
      let w4 := (Close w3 to_).1
      some w4

/-- The two `go connForward(1024, ...)` statements that end both handlers. -/
def startForwarding (w : World) (sconn conn : Nat) : World :=
  { w with goroutines := w.goroutines ++ [⟨1024, sconn, conn⟩, ⟨1024, conn, sconn⟩] }

/-- `tcpClientForward`: resolve, dial through the netstack, start both directions. -/
def tcpClientForward (host : Host) (w : World) (vt : VirtualTun) (raddr : addressPort)
    (conn : Nat) : World :=
  match resolveToAddrPort host vt raddr with
  | .error err => { w with errorLogger := w.errorLogger ++ [.serverTunnel none err] }
  | .ok target =>
    let tcpAddr := host.TCPAddrFromAddrPort target
    match vt.tnet.DialTCP tcpAddr with
    | .error err =>
      { w with errorLogger := w.errorLogger ++ [.clientTunnel (some target) err] }
    | .ok sconn => startForwarding w sconn conn

/-- `tcpServerForward`: resolve, dial on the host, start both directions. -/
def tcpServerForward (host : Host) (w : World) (vt : VirtualTun) (raddr : addressPort)
    (conn : Nat) : World :=
  match resolveToAddrPort host vt raddr with
  | .error err => { w with errorLogger := w.errorLogger ++ [.serverTunnel none err] }
  | .ok target =>
    let tcpAddr := host.TCPAddrFromAddrPort target
    let w1 : World := { w with logger := w.logger ++ [.forward raddr tcpAddr] }
    match host.DialTCP tcpAddr with
    | .error err =>
      { w1 with errorLogger := w1.errorLogger ++ [.serverTunnel (some target) err] }
    | .ok sconn => startForwarding w1 sconn conn

/-- The message of `handleBind`: "bind isn" , an apostrophe (39), "t implemented". -/
def bindMessage : GoString := ascii "bind isn" ++ 39 :: ascii "t implemented"

/-- `handleBind`: log the request, return `fmt.Errorf` of the message. -/
def handleBind (w : World) (_writer : Nat) (request : Request) : World × Option Err :=
  ({ w with logger := w.logger ++ [.bind request] }, some (.errorString bindMessage))

/-! ## Sample collaborators for the examples -/

/-- A netstack whose resolver fails on every name and whose dial fails on every
address. -/
def deadNet : Netstack :=
  { LookupContextHost := fun _ => .error (.external 1)
    DialTCP := fun _ => .error (.external 2) }

/-- A stand-in for `parseIPv4` in the examples: it knows the one address
192.0.2.1. -/
def sampleIPv4 (s : GoString) : Except Err Addr :=
  if s = ascii "192.0.2.1" then .ok { addr := 0xffffc0000201, z := .z4 }
  else .error (.parseAddrError s (ascii "unexpected character"))

/-- A stand-in for `parseIPv6` in the examples: it accepts nothing. -/
def sampleIPv6 (s : GoString) : Except Err Addr :=
  .error (.parseAddrError s (ascii "unexpected character"))

/-- A host whose resolver answers every name with the entries `answer`, whose
dial fails, and whose shuffle draws are all `draw`. -/
def sampleHost (answer : List GoString) (draw : Nat) : Host :=
  { LookupHost := fun _ => .ok answer
    DialTCP := fun _ => .error (.external 3)
    ParseAddr := ParseAddr sampleIPv4 sampleIPv6
    int31n := fun _ => draw
    TCPAddrFromAddrPort := fun _ => { IP := [192, 0, 2, 1], Port := 80, Zone := [] } }

/-- A state in which every stream is open, nothing is written or logged and no
goroutine runs. -/
def openWorld : World :=
  { closed := fun _ => false
    written := fun _ => []
    logger := []
    errorLogger := []
    goroutines := [] }

/-! ## Properties of the index functions -/

theorem IndexByteString_none {s : GoString} {c : Nat} :
    IndexByteString s c = none ↔ c ∉ s := by
  induction s with
  | nil => simp [IndexByteString]
  | cons b s ih =>
    by_cases hb : b = c
    · simp [IndexByteString, hb]
    · have hc : ¬ c = b := fun h => hb h.symm
      simp [IndexByteString, hb, hc, ih]

theorem IndexByteString_isSome {s : GoString} {c : Nat} :
    (IndexByteString s c).isSome = true ↔ c ∈ s := by
  rw [Option.isSome_iff_ne_none, Ne, IndexByteString_none, not_not]

theorem IndexByteString_append {a t : GoString} {c : Nat} (h : c ∉ a) :
    IndexByteString (a ++ c :: t) c = some a.length := by
  induction a with
  | nil => simp [IndexByteString]
  | cons b a ih =>
    have hb : ¬ b = c := fun e => h (by simp [e])
    have ha : c ∉ a := fun e => h (by simp [e])
    simp [IndexByteString, hb, ih ha]

theorem IndexByteString_some {s : GoString} {c i : Nat} (h : IndexByteString s c = some i) :
    ∃ a t, s = a ++ c :: t ∧ a.length = i ∧ c ∉ a := by
  induction s generalizing i with
  | nil => simp [IndexByteString] at h
  | cons b s ih =>
    by_cases hb : b = c
    · simp [IndexByteString, hb] at h
      exact ⟨[], s, by simp [hb], by simp [h], by simp⟩
    · simp only [IndexByteString, hb, if_false, Option.map_eq_some'] at h
      obtain ⟨k, hk, rfl⟩ := h
      obtain ⟨a, t, hs, hl, hn⟩ := ih hk
      refine ⟨b :: a, t, by simp [hs], by simp [hl], ?_⟩
      simp only [List.mem_cons, not_or]
      exact ⟨fun e => hb e.symm, hn⟩

theorem lastLoop_none {s : GoString} {b k : Nat} (h : lastLoop s b k = none) :
    ∀ j, j < k → s[j]? ≠ some b := by
  induction k with
  | zero => intro j hj; omega
  | succ k ih =>
    simp only [lastLoop] at h
    split at h
    · simp at h
    · intro j hj
      by_cases hjk : j = k
      · subst hjk; assumption
      · exact ih h j (by omega)

theorem lastLoop_some {s : GoString} {b k i : Nat} (h : lastLoop s b k = some i) :
    i < k ∧ s[i]? = some b ∧ ∀ j, i < j → j < k → s[j]? ≠ some b := by
  induction k with
  | zero => simp [lastLoop] at h
  | succ k ih =>
    simp only [lastLoop] at h
    split at h
    · injection h with h
      subst h
      refine ⟨by omega, by assumption, ?_⟩
      intro j h1 h2; omega
    · obtain ⟨h1, h2, h3⟩ := ih h
      refine ⟨by omega, h2, ?_⟩
      intro j hj1 hj2
      by_cases hjk : j = k
      · subst hjk; assumption
      · exact h3 j hj1 (by omega)

theorem last_none {s : GoString} {b : Nat} : last s b = none ↔ b ∉ s := by
  constructor
  · intro h hm
    obtain ⟨n, hn, hb⟩ := List.mem_iff_getElem.mp hm
    exact lastLoop_none h n hn (by simp [List.getElem?_eq_getElem hn, hb])
  · intro h
    cases hl : last s b with
    | none => rfl
    | some i =>
      obtain ⟨h1, h2, -⟩ := lastLoop_some hl
      exact absurd (List.getElem?_mem h2) h

theorem last_some {s : GoString} {b i : Nat} (h : last s b = some i) :
    ∃ a t, s = a ++ b :: t ∧ a.length = i ∧ b ∉ t := by
  obtain ⟨h1, h2, h3⟩ := lastLoop_some h
  refine ⟨s.take i, s.drop (i + 1), ?_, by simp; omega, ?_⟩
  · have hi : s[i] = b := by
      rw [List.getElem?_eq_getElem h1] at h2
      exact Option.some.inj h2
    rw [← hi, List.getElem_cons_drop _ _ h1, List.take_append_drop]
  · intro hm
    obtain ⟨n, hn, hb⟩ := List.mem_iff_getElem.mp hm
    simp only [List.length_drop] at hn
    refine h3 (i + 1 + n) (by omega) (by omega) ?_
    rw [List.getElem_drop] at hb
    rw [List.getElem?_eq_getElem (by omega), hb]

theorem last_append {a t : GoString} {b : Nat} (h : b ∉ t) :
    last (a ++ b :: t) b = some a.length := by
  cases hl : last (a ++ b :: t) b with
  | none => exact absurd (last_none.mp hl) (by simp)
  | some i =>
    obtain ⟨a', t', hs, hlen, hn⟩ := last_some hl
    obtain ⟨h1, h2, h3⟩ := lastLoop_some hl
    rcases Nat.lt_trichotomy i a.length with hlt | heq | hgt
    · exfalso
      refine h3 a.length hlt (by simp) ?_
      rw [List.getElem?_append_right (Nat.le_refl _)]
      simp
    · rw [heq]
    · exfalso
      apply h
      have : (a ++ b :: t)[i]? = some b := h2
      rw [List.getElem?_append_right (by omega)] at this
      obtain ⟨m, hm⟩ : ∃ m, i - a.length = m + 1 := ⟨i - a.length - 1, by omega⟩
      rw [hm, List.getElem?_cons_succ] at this
      exact List.getElem?_mem this

/-! ## Properties of `SplitHostPort` -/

theorem IndexByteString_isSome_false {s : GoString} {c : Nat} (h : c ∉ s) :
    (IndexByteString s c).isSome = false := by
  rw [IndexByteString_none.mpr h]; rfl

theorem splitTail_ok {e : GoString} {i j k : Nat} {host : GoString}
    (hj : 91 ∉ e.drop j) (hk : 93 ∉ e.drop k) :
    splitTail e i j k host = .ok (host, e.drop (i + 1)) := by
  simp [splitTail, IndexByteString_isSome_false hj, IndexByteString_isSome_false hk]

theorem splitTail_ok_inv {e : GoString} {i j k : Nat} {host h p : GoString}
    (hs : splitTail e i j k host = .ok (h, p)) :
    91 ∉ e.drop j ∧ 93 ∉ e.drop k ∧ h = host ∧ p = e.drop (i + 1) := by
  unfold splitTail at hs
  split at hs
  · cases hs
  · split at hs
    · cases hs
    · rename_i h1 h2
      simp only [Bool.not_eq_true, Option.not_isSome, Option.isNone_iff_eq_none] at h1 h2
      injection hs with hs
      injection hs with ha hb
      exact ⟨IndexByteString_none.mp h1, IndexByteString_none.mp h2, ha.symm, hb.symm⟩

theorem SplitHostPort_plain {host port : GoString}
    (h1 : 58 ∉ host) (h2 : 91 ∉ host) (h3 : 93 ∉ host)
    (h4 : 58 ∉ port) (h5 : 91 ∉ port) (h6 : 93 ∉ port) :
    SplitHostPort (host ++ 58 :: port) = .ok (host, port) := by
  have hm91 : 91 ∉ host ++ 58 :: port := by simp [h2, h5]
  have hm93 : 93 ∉ host ++ 58 :: port := by simp [h3, h6]
  have h0 : ¬ (host ++ 58 :: port)[0]? = some 91 := fun h => hm91 (List.getElem?_mem h)
  unfold SplitHostPort
  rw [last_append h4]
  simp only [h0, if_false, List.take_left, IndexByteString_isSome_false h1]
  rw [splitTail_ok (by simpa using hm91) (by simpa using hm93)]
  simp

theorem SplitHostPort_bracket {host port : GoString}
    (h2 : 91 ∉ host) (h3 : 93 ∉ host)
    (h4 : 58 ∉ port) (h5 : 91 ∉ port) (h6 : 93 ∉ port) :
    SplitHostPort (91 :: (host ++ 93 :: 58 :: port)) = .ok (host, port) := by
  have e1 : (91 :: (host ++ 93 :: 58 :: port) : GoString) = (91 :: host ++ [93]) ++ 58 :: port := by
    simp
  have e2 : (91 :: (host ++ 93 :: 58 :: port) : GoString) = (91 :: host) ++ 93 :: (58 :: port) := by
    simp
  have hl : last (91 :: (host ++ 93 :: 58 :: port)) 58 = some (host.length + 2) := by
    rw [e1, last_append h4]; simp
  have hi : IndexByteString (91 :: (host ++ 93 :: 58 :: port)) 93 = some (host.length + 1) := by
    rw [e2, IndexByteString_append (by simp [h3])]; simp
  unfold SplitHostPort
  rw [hl]
  simp only [List.getElem?_cons_zero, if_true, hi]
  have hlen : ¬ host.length + 1 + 1 = (91 :: (host ++ 93 :: 58 :: port)).length := by
    simp
  rw [if_neg hlen]
  rw [splitTail_ok (by simp [h2, h5]) (by
    rw [e1, List.drop_left' (by simp)]; simp [h6])]
  have t1 : ((91 :: (host ++ 93 :: 58 :: port) : GoString).take (host.length + 1)).drop 1 = host := by
    simp
  have t2 : (91 :: (host ++ 93 :: 58 :: port) : GoString).drop (host.length + 2 + 1) = port := by
    have e3 : (91 :: (host ++ 93 :: 58 :: port) : GoString) = (91 :: host ++ [93, 58]) ++ port := by
      simp
    rw [e3, List.drop_left' (by simp)]
  rw [t1, t2]

theorem SplitHostPort_ok_form {e host port : GoString}
    (h : SplitHostPort e = .ok (host, port)) : hostPortForm e host port := by
  unfold SplitHostPort at h
  split at h
  · cases h
  · rename_i i hl
    obtain ⟨a, t, he, hal, h58⟩ := last_some hl
    split at h
    · rename_i h0
      split at h
      · cases h
      · rename_i en hen
        obtain ⟨a', t', he', hal', h93⟩ := IndexByteString_some hen
        split at h
        · cases h
        · split at h
          · rename_i hne hei
            obtain ⟨hj, hk, hh, hp⟩ := splitTail_ok_inv h
            right
            -- a' starts with 91
            have ha' : ∃ r, a' = 91 :: r := by
              cases a' with
              | nil => rw [he'] at h0; simp at h0
              | cons x r => rw [he'] at h0; simp at h0; exact ⟨r, by rw [h0]⟩
            obtain ⟨r, rfl⟩ := ha'
            -- t' = 58 :: t
            have hlen : a.length = (91 :: r).length + 1 := by omega
            have hsplit : (91 :: r) ++ [93] ++ t' = a ++ 58 :: t := by
              rw [← he]; simp [he']
            have hat : a = 91 :: r ++ [93] ∧ t' = 58 :: t :=
              (List.append_inj hsplit (by simp [hlen])).imp Eq.symm id
            obtain ⟨rfl, rfl⟩ := hat
            subst he'
            have hhost : host = r := by
              rw [hh, ← hal']; simp
            have hport : port = t := by
              rw [hp, ← hal]; simp
            subst hhost hport
            simp only [List.cons_append, List.drop_one, List.tail_cons, List.mem_append,
              List.mem_cons, not_or] at hj
            have hk' : 93 ∉ (58 :: port : GoString) := by
              rw [← hal'] at hk
              simpa using hk
            simp only [List.mem_cons, not_or] at h93 hk'
            exact ⟨by simp, hj.1, h93.2, h58, hj.2.2.2, hk'.2⟩
          · split at h <;> cases h
    · rename_i h0
      simp only at h
      split at h
      · cases h
      · rename_i hc
        obtain ⟨hj, hk, hh, hp⟩ := splitTail_ok_inv h
        left
        simp only [Bool.not_eq_true, Option.not_isSome, Option.isNone_iff_eq_none] at hc
        have hc' := IndexByteString_none.mp hc
        subst he
        rw [← hal] at hc' hh hp
        simp only [List.take_left] at hc' hh
        have hp' : port = t := by rw [hp]; simp
        subst hh hp'
        simp only [List.drop_zero, List.mem_append, List.mem_cons, not_or] at hj hk
        exact ⟨rfl, hc', hj.1, hk.1, h58, hj.2.2, hk.2.2⟩

theorem SplitHostPort_ok_iff {e host port : GoString} :
    SplitHostPort e = .ok (host, port) ↔ hostPortForm e host port := by
  constructor
  · exact SplitHostPort_ok_form
  · rintro (⟨rfl, h1, h2, h3, h4, h5, h6⟩ | ⟨rfl, h2, h3, h4, h5, h6⟩)
    · exact SplitHostPort_plain h1 h2 h3 h4 h5 h6
    · exact SplitHostPort_bracket h2 h3 h4 h5 h6

theorem splitTail_error {e : GoString} {i j k : Nat} {host : GoString} {err : Err}
    (h : splitTail e i j k host = .error err) : ∃ why, err = .addrError why e := by
  unfold splitTail at h
  split at h
  · injection h with h; exact ⟨_, h.symm⟩
  · split at h
    · injection h with h; exact ⟨_, h.symm⟩
    · cases h

theorem SplitHostPort_error {e : GoString} {err : Err} (h : SplitHostPort e = .error err) :
    ∃ why, err = .addrError why e := by
  unfold SplitHostPort at h
  split at h
  · injection h with h; exact ⟨_, h.symm⟩
  · split at h
    · split at h
      · injection h with h; exact ⟨_, h.symm⟩
      · split at h
        · injection h with h; exact ⟨_, h.symm⟩
        · split at h
          · exact splitTail_error h
          · split at h <;> (injection h with h; exact ⟨_, h.symm⟩)
    · simp only at h
      split at h
      · injection h with h; exact ⟨_, h.symm⟩
      · exact splitTail_error h

/-! ## Properties of `Atoi` -/

theorem atoiLoop_digits (l : List Nat) (hl : ∀ d ∈ l, d < 10) (n : Int) :
    atoiLoop (l.map (· + 48)) n = some (l.foldl (fun (a : Int) (d : Nat) => a * 10 + (d : Int)) n) := by
  induction l generalizing n with
  | nil => rfl
  | cons d l ih =>
    have hd : d < 10 := hl d (by simp)
    have h1 : (d + 48 + 256 - 48) % 256 = d := by omega
    simp only [List.map_cons, atoiLoop, h1, List.foldl_cons]
    rw [if_neg (by omega)]
    exact ih (fun x hx => hl x (by simp [hx])) _

theorem foldr_ofDigits (L : List Nat) :
    L.foldr (fun (d : Nat) (a : Int) => a * 10 + (d : Int)) 0 = ((Nat.ofDigits 10 L : Nat) : Int) := by
  induction L with
  | nil => simp [Nat.ofDigits]
  | cons d L ih =>
    simp only [List.foldr_cons, ih, Nat.ofDigits_cons]
    push_cast
    ring

theorem digits_length_le_five {p : Nat} (hp : p ≤ 65535) : (Nat.digits 10 p).length ≤ 5 := by
  by_contra hc
  have h6 : 6 ≤ (Nat.digits 10 p).length := by omega
  have h1 : 10 ^ 6 ≤ 10 ^ (Nat.digits 10 p).length := Nat.pow_le_pow_right (by norm_num) h6
  by_cases h0 : p = 0
  · subst h0; simp at h6
  · have h2 := Nat.base_pow_length_digits_le 10 p (by norm_num) h0
    omega

theorem decimal_eq (p : Nat) : ∃ l : List Nat, decimal p = l.map (· + 48) ∧ l ≠ [] ∧
    (∀ d ∈ l, d < 10) ∧ l.foldl (fun (a : Int) (d : Nat) => a * 10 + (d : Int)) (0 : Int) = (p : Int) ∧
    (p ≤ 65535 → l.length ≤ 5) := by
  by_cases h0 : p = 0
  · exact ⟨[0], by simp [decimal, h0], by simp, by simp, by simp [h0], by simp⟩
  · refine ⟨(Nat.digits 10 p).reverse, by simp [decimal, h0], ?_, ?_, ?_, ?_⟩
    · simpa using Nat.digits_ne_nil_iff_ne_zero.mpr h0
    · intro d hd
      exact Nat.digits_lt_base (by norm_num) (List.mem_reverse.mp hd)
    · rw [List.foldl_reverse, foldr_ofDigits, Nat.ofDigits_digits]
    · intro hp
      simpa using digits_length_le_five hp

theorem Atoi_decimal (w : IntSize) {p : Nat} (hp : p ≤ 65535) :
    Atoi w (decimal p) = ((p : Int), none) := by
  obtain ⟨l, hl, hne, hd, hv, hlen⟩ := decimal_eq p
  have hlen5 := hlen hp
  rw [hl]
  cases l with
  | nil => exact absurd rfl hne
  | cons d l =>
    have hd0 : d < 10 := hd d (by simp)
    have hlen' : l.length ≤ 4 := by simpa using hlen5
    have hfast : (w = .w32 ∧ (0 < ((d :: l).map (· + 48)).length ∧
        ((d :: l).map (· + 48)).length < 10)) ∨
        (w = .w64 ∧ (0 < ((d :: l).map (· + 48)).length ∧
        ((d :: l).map (· + 48)).length < 19)) := by
      cases w
      · refine Or.inl ⟨rfl, ?_, ?_⟩ <;> simp only [List.length_map, List.length_cons] <;> omega
      · refine Or.inr ⟨rfl, ?_, ?_⟩ <;> simp only [List.length_map, List.length_cons] <;> omega
    unfold Atoi
    simp only [if_pos hfast]
    have h45 : ¬ ((d :: l).map (· + 48))[0]? = some 45 := by
      simp
    have h43 : ¬ ((d :: l).map (· + 48))[0]? = some 43 := by
      simp
    simp only [h45, h43, or_self, decide_False, Bool.false_eq_true, if_false, false_and]
    rw [atoiLoop_digits (d :: l) hd 0, hv]

theorem atoiLoop_sound {s : GoString} (hw : wellFormed s) {n0 n : Int}
    (h : atoiLoop s n0 = some n) :
    s.all isDigit = true ∧
      n = s.foldl (fun (a : Int) (b : Nat) => a * 10 + ((b - 48 : Nat) : Int)) n0 := by
  induction s generalizing n0 with
  | nil => simp [atoiLoop] at h; simp [h]
  | cons c s ih =>
    have hc : c < 256 := hw c (by simp)
    simp only [atoiLoop] at h
    split at h
    · cases h
    · rename_i hd
      have hs : wellFormed s := fun b hb => hw b (by simp [hb])
      obtain ⟨h1, h2⟩ := ih hs h
      have hc1 : 48 ≤ c ∧ c ≤ 57 := by omega
      have hc2 : (c + 256 - 48) % 256 = c - 48 := by omega
      refine ⟨?_, ?_⟩
      · simp [isDigit, hc1, h1]
      · rw [h2, hc2]; rfl

theorem foldl_digitsValue (s : GoString) (n0 : Nat) :
    s.foldl (fun (a : Int) (b : Nat) => a * 10 + ((b - 48 : Nat) : Int)) (n0 : Int) =
      ((s.foldl (fun n b => n * 10 + (b - 48)) n0 : Nat) : Int) := by
  induction s generalizing n0 with
  | nil => rfl
  | cons c s ih =>
    simp only [List.foldl_cons]
    rw [← ih]
    push_cast
    rfl

theorem parseUintDigit_letter {c d : Nat} (h : parseUintDigit c = some d) (hd : d < 10) :
    48 ≤ c ∧ c ≤ 57 ∧ d = c - 48 := by
  unfold parseUintDigit at h
  split at h
  · injection h with h; omega
  · split at h
    · injection h with h; omega
    · cases h

theorem parseUintLoop_err {maxVal : Nat} {s : GoString} {n0 v : Nat}
    (h : parseUintLoop maxVal s n0 = (v, some .rangeErr)) : v = maxVal := by
  induction s generalizing n0 with
  | nil => simp [parseUintLoop] at h
  | cons c s ih =>
    simp only [parseUintLoop] at h
    split at h
    · cases h
    · split at h
      · cases h
      · split at h
        · injection h with h1 h2; exact h1.symm
        · split at h
          · injection h with h1 h2; exact h1.symm
          · exact ih h

theorem parseUintLoop_sound {maxVal : Nat} {s : GoString} {n0 n : Nat}
    (h : parseUintLoop maxVal s n0 = (n, none)) :
    s.all isDigit = true ∧ n = s.foldl (fun n b => n * 10 + (b - 48)) n0 := by
  induction s generalizing n0 with
  | nil => simp [parseUintLoop] at h; simp [h]
  | cons c s ih =>
    simp only [parseUintLoop] at h
    split at h
    · cases h
    · rename_i d hd
      split at h
      · cases h
      · rename_i hd10
        split at h
        · cases h
        · rename_i hcut
          split at h
          · cases h
          · rename_i hov
            obtain ⟨hc1, hc2, hc3⟩ := parseUintDigit_letter hd (by omega)
            obtain ⟨h1, h2⟩ := ih h
            have hcut' : n0 < 1844674407370955162 := by
              simp only [cutoff10] at hcut; omega
            have e : (n0 * 10 % 2 ^ 64 + d) % 2 ^ 64 = n0 * 10 + (c - 48) := by
              have : (2 : Nat) ^ 64 = 18446744073709551616 := by norm_num
              rw [this] at hov ⊢
              omega
            refine ⟨by simp [isDigit, hc1, hc2, h1], ?_⟩
            rw [h2, e]; rfl

theorem ParseUint_cases {w : IntSize} {s : GoString} {un : Nat} {e : Option NumKind}
    (h : ParseUint w s = (un, e)) :
    (e = none ∧ unsignedValue s = some un) ∨ e = some .syntaxErr ∨
      (e = some .rangeErr ∧ un = 2 ^ w.bits - 1) := by
  unfold ParseUint at h
  split at h
  · injection h with h1 h2; exact Or.inr (Or.inl h2.symm)
  · rename_i hne
    cases e with
    | none =>
      obtain ⟨h1, h2⟩ := parseUintLoop_sound h
      left
      refine ⟨rfl, ?_⟩
      simp only [unsignedValue, hne, ne_eq, not_false_eq_true, h1, and_self, if_true, digitsValue, h2]
    | some k =>
      cases k with
      | syntaxErr => exact Or.inr (Or.inl rfl)
      | rangeErr => exact Or.inr (Or.inr ⟨rfl, parseUintLoop_err h⟩)

theorem denotes_plus (ds : GoString) :
    denotes (43 :: ds) = (unsignedValue ds).map fun (v : Nat) => (v : Int) := rfl

theorem denotes_minus (ds : GoString) :
    denotes (45 :: ds) = (unsignedValue ds).map fun (v : Nat) => -(v : Int) := rfl

theorem denotes_other {c : Nat} (ds : GoString) (h1 : c ≠ 43) (h2 : c ≠ 45) :
    denotes (c :: ds) = (unsignedValue (c :: ds)).map fun (v : Nat) => (v : Int) := by
  unfold denotes
  split
  · rename_i h; injection h with h; exact absurd h h1
  · rename_i h; injection h with h; exact absurd h h2
  · rfl

theorem ParseInt_value {w : IntSize} {neg : Bool} {un : Nat} {e : Option NumKind}
    {s0 : GoString} {v : Int}
    (he : e = none ∨ (e = some .rangeErr ∧ un = 2 ^ w.bits - 1))
    (h : (if (!neg) = true ∧ un ≥ 2 ^ (w.bits - 1) then
            (((2 ^ (w.bits - 1) : Nat) : Int) - 1, some (Err.numError .fnParseInt s0 .rangeErr))
          else if neg = true ∧ un > 2 ^ (w.bits - 1) then
            (-((2 ^ (w.bits - 1) : Nat) : Int), some (Err.numError .fnParseInt s0 .rangeErr))
          else
            (if neg = true then wrapSigned 64 (-wrapSigned 64 un) else wrapSigned 64 un,
              (none : Option Err))) = (v, none)) :
    e = none ∧ v = (if neg = true then -(un : Int) else (un : Int)) ∧
      wrapSigned w.bits v = v := by
  split at h
  · cases h
  · rename_i c1
    split at h
    · cases h
    · rename_i c2
      injection h with hv _
      subst hv
      cases neg <;> cases w <;>
        simp only [IntSize.bits, Bool.not_false, Bool.not_true, true_and, false_and, not_false_eq_true,
          Bool.false_eq_true, if_false, if_true, ge_iff_le, gt_iff_lt, not_le, not_lt] at c1 c2 he ⊢ <;>
        norm_num at c1 c2 he ⊢ <;>
        (rcases he with he | ⟨he, hu⟩) <;>
        first
          | (exfalso; omega)
          | (refine ⟨he, ?_, ?_⟩ <;> simp only [wrapSigned] <;> norm_num <;> omega)

theorem ParseInt_sound {w : IntSize} {s : GoString} {v : Int}
    (h : ParseInt w s = (v, none)) : denotes s = some v ∧ wrapSigned w.bits v = v := by
  unfold ParseInt at h
  split at h
  · cases h
  · cases s with
    | nil => contradiction
    | cons c rest =>
      simp only [List.getElem?_cons_zero, Option.some.injEq, List.drop_one, List.tail_cons] at h
      split at h
      · cases h
      · rename_i un e hns heq
        have hcases := ParseUint_cases heq
        have he : e = none ∨ (e = some .rangeErr ∧ un = 2 ^ w.bits - 1) := by
          rcases hcases with ⟨h1, -⟩ | h1 | h1
          · exact Or.inl h1
          · exact absurd h1 hns
          · exact Or.inr h1
        obtain ⟨hnone, hv, hwrap⟩ := ParseInt_value he h
        refine ⟨?_, hwrap⟩
        subst hnone
        rcases hcases with ⟨-, hu⟩ | h1 | ⟨h1, -⟩
        · by_cases h43 : c = 43
          · subst h43
            simp only [if_true] at hu
            rw [denotes_plus, hu, hv]
            simp
          · by_cases h45 : c = 45
            · subst h45
              norm_num at hu
              rw [denotes_minus, hu, hv]
              simp
            · simp only [h43, h45, if_false] at hu
              rw [denotes_other _ h43 h45, hu, hv]
              simp [h45]
        · cases h1
        · cases h1

theorem atoiLoop_value {s : GoString} (hw : wellFormed s) (hne : s ≠ []) {n : Int}
    (h : atoiLoop s 0 = some n) : ∃ u : Nat, unsignedValue s = some u ∧ n = (u : Int) := by
  obtain ⟨h1, h2⟩ := atoiLoop_sound hw h
  refine ⟨digitsValue s, by simp [unsignedValue, hne, h1], ?_⟩
  rw [h2]
  exact foldl_digitsValue s 0

theorem Atoi_sound {w : IntSize} {s : GoString} {v : Int} (hw : wellFormed s)
    (h : Atoi w s = (v, none)) : denotes s = some v := by
  by_cases hfast : (w = .w32 ∧ (0 < s.length ∧ s.length < 10)) ∨
      (w = .w64 ∧ (0 < s.length ∧ s.length < 19))
  · unfold Atoi at h
    simp only [if_pos hfast] at h
    cases s with
    | nil => simp at hfast
    | cons c rest =>
      have hrest : wellFormed rest := fun b hb => hw b (by simp [hb])
      simp only [List.getElem?_cons_zero, Option.some.injEq, List.drop_one, List.tail_cons] at h
      by_cases h45 : c = 45
      · subst h45
        simp only [true_or, decide_True, if_true, true_and] at h
        by_cases hlen : rest.length < 1
        · rw [if_pos hlen] at h; cases h
        · rw [if_neg hlen] at h
          have hne : rest ≠ [] := by
            intro e; subst e; simp at hlen
          cases hn : atoiLoop rest 0 with
          | none => rw [hn] at h; cases h
          | some n =>
            rw [hn] at h
            obtain ⟨u, hu, rfl⟩ := atoiLoop_value hrest hne hn
            injection h with hv _
            rw [denotes_minus, hu, ← hv]
            simp
      · by_cases h43 : c = 43
        · subst h43
          simp only [or_true, decide_True, if_true, true_and] at h
          by_cases hlen : rest.length < 1
          · rw [if_pos hlen] at h; cases h
          · rw [if_neg hlen] at h
            have hne : rest ≠ [] := by
              intro e; subst e; simp at hlen
            cases hn : atoiLoop rest 0 with
            | none => rw [hn] at h; cases h
            | some n =>
              rw [hn] at h
              obtain ⟨u, hu, rfl⟩ := atoiLoop_value hrest hne hn
              injection h with hv _
              simp only [h45, if_false] at hv
              rw [denotes_plus, hu, ← hv]
              simp
        · simp only [h45, h43, or_self, decide_False, Bool.false_eq_true, if_false, false_and] at h
          cases hn : atoiLoop (c :: rest) 0 with
          | none => rw [hn] at h; cases h
          | some n =>
            rw [hn] at h
            obtain ⟨u, hu, rfl⟩ := atoiLoop_value hw (by simp) hn
            injection h with hv _
            rw [denotes_other _ h43 h45, hu, ← hv]
            simp
  · unfold Atoi at h
    simp only [if_neg hfast] at h
    cases heq : ParseInt w s with
    | mk i64 err =>
      rw [heq] at h
      injection h with hv herr
      have herr' : err = none := by
        cases err with
        | none => rfl
        | some e => simp at herr
      subst herr'
      obtain ⟨h1, h2⟩ := ParseInt_sound heq
      rw [h1, ← hv, h2]

/-! ## The address parser -/

theorem decimal_digit_bytes (p : Nat) : ∀ b ∈ decimal p, 48 ≤ b ∧ b ≤ 57 := by
  obtain ⟨l, hl, -, hd, -, -⟩ := decimal_eq p
  intro b hb
  rw [hl] at hb
  obtain ⟨d, hd1, rfl⟩ := List.mem_map.mp hb
  have := hd d hd1
  omega

theorem parseAddressPort_eq (w : IntSize) (e : GoString) :
    parseAddressPort w e =
      match SplitHostPort e with
      | .error err => .error err
      | .ok (name, sport) =>
        if (Atoi w sport).2 ≠ none ∨ (Atoi w sport).1 < 0 ∨ (Atoi w sport).1 > 65535 then
          .error portError
        else .ok { address := name, port := ((Atoi w sport).1 % 65536).toNat } := by
  unfold parseAddressPort
  cases SplitHostPort e with
  | error err => rfl
  | ok r => rfl

theorem parseAddressPort_of_split {w : IntSize} {e host sport : GoString} {p : Int}
    (hs : SplitHostPort e = .ok (host, sport)) (ha : Atoi w sport = (p, none))
    (h0 : 0 ≤ p) (h1 : p ≤ 65535) :
    parseAddressPort w e = .ok { address := host, port := p.toNat } := by
  rw [parseAddressPort_eq, hs]
  simp only [ha]
  rw [if_neg (by simp; omega)]
  congr 2
  omega

theorem parseAddressPort_ok_inv {w : IntSize} {e : GoString} {t : addressPort}
    (h : parseAddressPort w e = .ok t) :
    ∃ sport p, SplitHostPort e = .ok (t.address, sport) ∧ Atoi w sport = (p, none) ∧
      0 ≤ p ∧ p ≤ 65535 ∧ (t.port : Int) = p := by
  rw [parseAddressPort_eq] at h
  cases hs : SplitHostPort e with
  | error err => rw [hs] at h; cases h
  | ok r =>
    obtain ⟨name, sport⟩ := r
    rw [hs] at h
    simp only at h
    by_cases hc : (Atoi w sport).2 ≠ none ∨ (Atoi w sport).1 < 0 ∨ (Atoi w sport).1 > 65535
    · rw [if_pos hc] at h; cases h
    · rw [if_neg hc] at h
      injection h with h
      subst h
      simp only [ne_eq, not_or, not_not, not_lt, gt_iff_lt] at hc
      obtain ⟨hn, h0, h1⟩ := hc
      refine ⟨sport, (Atoi w sport).1, rfl, ?_, h0, h1, by simp only; omega⟩
      rw [← hn]

/-- C1: for a host `h` free of `:`, `[` and `]` and a port `p` in [0, 65535],
`parseAddressPort` on `h ++ ":" ++ decimal p` succeeds, and the target it returns
has address exactly `h` and port exactly `p`. -/
theorem parseAddressPort_host_port (w : IntSize) (h : GoString) (p : Nat)
    (hcolon : 58 ∉ h) (hopen : 91 ∉ h) (hclose : 93 ∉ h) (hp : p ≤ 65535) :
    parseAddressPort w (h ++ 58 :: decimal p) = .ok { address := h, port := p } := by
  have hd := decimal_digit_bytes p
  have hs : SplitHostPort (h ++ 58 :: decimal p) = .ok (h, decimal p) :=
    SplitHostPort_plain hcolon hopen hclose
      (fun hm => by have := hd _ hm; omega) (fun hm => by have := hd _ hm; omega)
      (fun hm => by have := hd _ hm; omega)
  have := parseAddressPort_of_split (w := w) hs (Atoi_decimal w hp) (by omega) (by omega)
  simpa using this

theorem parseAddressPort_host_port_witness :
    parseAddressPort .w64 (ascii "example.org" ++ 58 :: decimal 80)
      = .ok { address := ascii "example.org", port := 80 } :=
  parseAddressPort_host_port .w64 (ascii "example.org") 80
    (by decide) (by decide) (by decide) (by decide)

theorem hostPortForm_wellFormed {e host sport : GoString} (hf : hostPortForm e host sport)
    (hw : wellFormed e) : wellFormed sport := by
  intro b hb
  rcases hf with ⟨rfl, -⟩ | ⟨rfl, -⟩
  · exact hw b (by simp [hb])
  · exact hw b (by simp [hb])

/-- C2: when the endpoint splits into a host and a port segment and the port
segment does not denote an integer in [0, 65535] (it is no decimal numeral, or
the numeral is negative or above 65535), `parseAddressPort` fails with the
invalid-port error, the `net.OpError` "port must be numeric". -/
theorem parseAddressPort_invalid_port (w : IntSize) (e host sport : GoString)
    (hw : wellFormed e) (hf : hostPortForm e host sport)
    (hbad : ∀ n : Int, denotes sport = some n → n < 0 ∨ 65535 < n) :
    parseAddressPort w e = .error portError := by
  have hs := SplitHostPort_ok_iff.mpr hf
  rw [parseAddressPort_eq, hs]
  simp only
  by_cases he : (Atoi w sport).2 = none
  · have ha : Atoi w sport = ((Atoi w sport).1, none) := by rw [← he]
    have := hbad _ (Atoi_sound (hostPortForm_wellFormed hf hw) ha)
    rw [if_pos (Or.inr (by omega))]
  · rw [if_pos (Or.inl he)]

theorem parseAddressPort_invalid_port_witness :
    parseAddressPort .w64 (ascii "host:70000") = .error portError :=
  parseAddressPort_invalid_port .w64 (ascii "host:70000") (ascii "host") (ascii "70000")
    (by decide) (Or.inl (by decide))
    (fun n hn => by
      have hv : denotes (ascii "70000") = some 70000 := by decide
      rw [hv] at hn
      injection hn with hn
      omega)

/-- C3: an endpoint that is no colon-delimited host/port pair makes
`parseAddressPort` fail with the error of the split, a `net.AddrError` on that
endpoint, and never with the invalid-port error; with no colon at all the
reason is "missing port in address". -/
theorem parseAddressPort_invalid_endpoint (w : IntSize) (e : GoString)
    (h : ¬ ∃ host port, hostPortForm e host port) :
    (∃ why, parseAddressPort w e = .error (.addrError why e)) ∧
      parseAddressPort w e ≠ .error portError ∧
      (58 ∉ e → parseAddressPort w e = .error (.addrError .missingPort e)) := by
  have key : ∃ why, parseAddressPort w e = .error (.addrError why e) := by
    cases hs : SplitHostPort e with
    | ok r =>
      obtain ⟨host, port⟩ := r
      exact absurd ⟨host, port, SplitHostPort_ok_iff.mp hs⟩ h
    | error err =>
      obtain ⟨why, rfl⟩ := SplitHostPort_error hs
      exact ⟨why, by rw [parseAddressPort_eq, hs]⟩
  refine ⟨key, ?_, ?_⟩
  · obtain ⟨why, hk⟩ := key
    rw [hk]
    intro hc
    injection hc with hc
    cases hc
  · intro hc
    have hs : SplitHostPort e = .error (.addrError .missingPort e) := by
      unfold SplitHostPort
      rw [last_none.mpr hc]
    rw [parseAddressPort_eq, hs]

theorem parseAddressPort_invalid_endpoint_witness :
    (∃ why, parseAddressPort .w64 (ascii "a:b:80") = .error (.addrError why (ascii "a:b:80"))) ∧
      parseAddressPort .w64 (ascii "a:b:80") ≠ .error portError ∧
      (58 ∉ ascii "a:b:80" →
        parseAddressPort .w64 (ascii "a:b:80") = .error (.addrError .missingPort (ascii "a:b:80"))) :=
  parseAddressPort_invalid_endpoint .w64 (ascii "a:b:80") (by
    rintro ⟨host, port, hf⟩
    have hs := SplitHostPort_ok_iff.mpr hf
    have he : SplitHostPort (ascii "a:b:80") =
        .error (.addrError .tooManyColons (ascii "a:b:80")) := by rfl
    rw [he] at hs
    cases hs)

/-- C4, as stated, fails: on ":80" the parser succeeds with an empty host, so
"every returned target has a non-empty host" does not hold of the code. -/
theorem parseAddressPort_empty_host :
    parseAddressPort .w64 (ascii ":80") = .ok { address := [], port := 80 } ∧
      ¬ (∀ (w : IntSize) (e : GoString) (t : addressPort),
          parseAddressPort w e = .ok t → t.port ≤ 65535 ∧ t.address ≠ []) := by
  have h : parseAddressPort .w64 (ascii ":80") = .ok { address := [], port := 80 } := by rfl
  exact ⟨h, fun hall => (hall _ _ _ h).2 rfl⟩

/-- C4, amended: every target `parseAddressPort` returns has its port in
[0, 65535]; its host is empty exactly when the endpoint starts with ":" or with
"[]:", and non-empty otherwise. -/
theorem parseAddressPort_target_invariant (w : IntSize) (e : GoString) (t : addressPort)
    (h : parseAddressPort w e = .ok t) :
    t.port ≤ 65535 ∧
      (t.address = [] ↔ (e.head? = some 58 ∨ e.take 3 = [91, 93, 58])) := by
  obtain ⟨sport, p, hs, -, h0, h1, hp⟩ := parseAddressPort_ok_inv h
  refine ⟨by omega, ?_⟩
  rcases SplitHostPort_ok_iff.mp hs with ⟨rfl, h58, h91, h93, -⟩ | ⟨rfl, h91, h93, -⟩
  · constructor
    · intro ha; rw [ha]; simp
    · intro hc
      cases hh : t.address with
      | nil => rfl
      | cons c r =>
        rw [hh] at hc h58 h91
        simp only [List.cons_append, List.head?_cons, Option.some.injEq, List.take_succ_cons,
          List.cons.injEq, List.mem_cons, not_or] at hc h58 h91
        omega
  · constructor
    · intro ha; rw [ha]; simp
    · intro hc
      cases hh : t.address with
      | nil => rfl
      | cons c r =>
        rw [hh] at hc h93
        simp only [List.cons_append, List.head?_cons, Option.some.injEq, List.take_succ_cons,
          List.cons.injEq, List.mem_cons, not_or] at hc h93
        omega

theorem parseAddressPort_target_invariant_witness :
    ({ address := ascii "host", port := 80 } : addressPort).port ≤ 65535 ∧
      (({ address := ascii "host", port := 80 } : addressPort).address = [] ↔
        ((ascii "host:80").head? = some 58 ∨ (ascii "host:80").take 3 = [91, 93, 58])) :=
  parseAddressPort_target_invariant .w64 (ascii "host:80")
    { address := ascii "host", port := 80 } (by rfl)

/-! ## Properties of the shuffle and the resolver -/

theorem swap_perm (l : List GoString) (i j : Nat) : (swap l i j).Perm l := by
  unfold swap
  cases hi : l[i]? with
  | none => exact List.Perm.refl _
  | some a =>
    cases hj : l[j]? with
    | none => exact List.Perm.refl _
    | some b =>
      simp only
      obtain ⟨hi', rfl⟩ := List.getElem?_eq_some.mp hi
      obtain ⟨hj', rfl⟩ := List.getElem?_eq_some.mp hj
      have e1 : (l.set i l[j]).set j l[i] =
          List.ofFn ((fun k : Fin l.length => l[k.val]) ∘ (Equiv.swap ⟨i, hi'⟩ ⟨j, hj'⟩)) := by
        apply List.ext_getElem
        · simp
        · intro k h1 h2
          simp only [List.length_set] at h1
          simp only [List.getElem_set, List.getElem_ofFn, Function.comp_apply,
            Equiv.swap_apply_def, Fin.ext_iff]
          by_cases hkj : j = k
          · subst hkj
            by_cases hki : j = i
            · subst hki; simp
            · simp [hki]
          · by_cases hki : i = k
            · subst hki; simp [hkj]
            · have h3 : ¬ k = i := fun h => hki h.symm
              have h4 : ¬ k = j := fun h => hkj h.symm
              simp [hkj, hki, h3, h4]
      have e2 : l = List.ofFn (fun k : Fin l.length => l[k.val]) := by
        apply List.ext_getElem
        · simp
        · intro k h1 h2; simp
      rw [e1]
      conv_rhs => rw [e2]
      exact Equiv.Perm.ofFn_comp_perm _ _

theorem shuffleFrom_perm (draw : Nat → Nat) (i : Nat) (l : List GoString) :
    (shuffleFrom draw i l).Perm l := by
  induction i generalizing l with
  | zero => exact List.Perm.refl _
  | succ i ih => exact (ih _).trans (swap_perm _ _ _)

theorem Shuffle_perm (draw : Nat → Nat) (n : Nat) (l : List GoString) :
    (Shuffle draw n l).Perm l := shuffleFrom_perm draw _ l

theorem scanAddrs_first (parse : GoString → Except Err Addr) (l : List GoString)
    (st : Addr × Option Err) {s : GoString}
    (h : l.find? (fun x => parses (parse x)) = some s) :
    ∃ a, parse s = .ok a ∧ scanAddrs parse l st = (a, none) := by
  induction l generalizing st with
  | nil => simp at h
  | cons x rest ih =>
    cases hp : parse x with
    | ok a =>
      simp only [List.find?_cons, hp, parses] at h
      injection h with h
      subst h
      exact ⟨a, hp, by simp [scanAddrs, hp]⟩
    | error e =>
      simp only [List.find?_cons, hp, parses] at h
      obtain ⟨a, h1, h2⟩ := ih (Addr.zero, some e) h
      exact ⟨a, h1, by simp [scanAddrs, hp, h2]⟩

theorem scanAddrs_none (parse : GoString → Except Err Addr) (l : List GoString)
    (st : Addr × Option Err) (hne : l ≠ [])
    (h : l.find? (fun x => parses (parse x)) = none) :
    ∃ e, parse (l.getLast hne) = .error e ∧ scanAddrs parse l st = (Addr.zero, some e) := by
  induction l generalizing st with
  | nil => exact absurd rfl hne
  | cons x rest ih =>
    cases hp : parse x with
    | ok a => simp [List.find?_cons, hp, parses] at h
    | error e =>
      simp only [List.find?_cons, hp, parses] at h
      cases rest with
      | nil => exact ⟨e, by simpa using hp, by simp [scanAddrs, hp]⟩
      | cons y rest' =>
        obtain ⟨e', h1, h2⟩ := ih (Addr.zero, some e) (by simp) h
        exact ⟨e', by simpa using h1, by simp only [scanAddrs, hp]; exact h2⟩

theorem ResolveAddrWithContext_eq {host : Host} {d : VirtualTun} {name : GoString}
    {addrs : List GoString} (hl : LookupAddr host d name = .ok addrs) (hne : addrs ≠ []) :
    ResolveAddrWithContext host d name =
      match scanAddrs host.ParseAddr (Shuffle host.int31n addrs.length addrs)
        (Addr.zero, none) with
      | (_, some err) => .error err
      | (addr, none) => .ok addr := by
  unfold ResolveAddrWithContext
  rw [hl]
  have : ¬ addrs.length = 0 := by
    intro h; exact hne (List.length_eq_zero.mp h)
  simp only [if_neg this]

theorem Shuffle_ne_nil {draw : Nat → Nat} {n : Nat} {l : List GoString} (hne : l ≠ []) :
    Shuffle draw n l ≠ [] := by
  intro h
  have := (Shuffle_perm draw n l).length_eq
  rw [h] at this
  exact hne (List.length_eq_zero.mp this.symm)

/-- C5, as stated, fails: a lookup that returns the single entry "localhost",
which is no IP literal whatever the two sub-parsers are, makes
`ResolveAddrWithContext` fail with the parse error "unable to parse IP". -/
theorem ResolveAddrWithContext_unparsable_entry :
    (∀ (p4 p6 : GoString → Except Err Addr) (draw : Nat → Nat) (dial : TCPAddr → Except Err Nat)
        (conv : AddrPort → TCPAddr),
      ResolveAddrWithContext
        { LookupHost := fun _ => .ok [ascii "localhost"], DialTCP := dial,
          ParseAddr := ParseAddr p4 p6, int31n := draw, TCPAddrFromAddrPort := conv }
        { tnet := deadNet, systemDNS := true } (ascii "example.org")
        = .error (.parseAddrError (ascii "localhost") (ascii "unable to parse IP"))) ∧
    ¬ (∀ (host : Host) (d : VirtualTun) (name : GoString) (addrs : List GoString),
        LookupAddr host d name = .ok addrs → addrs ≠ [] →
        ∃ a s, s ∈ addrs ∧ host.ParseAddr s = .ok a ∧
          ResolveAddrWithContext host d name = .ok a) := by
  have h1 : ∀ (p4 p6 : GoString → Except Err Addr) (draw : Nat → Nat)
      (dial : TCPAddr → Except Err Nat) (conv : AddrPort → TCPAddr),
      ResolveAddrWithContext
        { LookupHost := fun _ => .ok [ascii "localhost"], DialTCP := dial,
          ParseAddr := ParseAddr p4 p6, int31n := draw, TCPAddrFromAddrPort := conv }
        { tnet := deadNet, systemDNS := true } (ascii "example.org")
        = .error (.parseAddrError (ascii "localhost") (ascii "unable to parse IP")) := by
    intro p4 p6 draw dial conv
    rfl
  refine ⟨h1, ?_⟩
  intro hall
  obtain ⟨a, s, -, -, h2⟩ := hall
    { LookupHost := fun _ => .ok [ascii "localhost"], DialTCP := fun _ => .error (.external 3),
      ParseAddr := ParseAddr sampleIPv4 sampleIPv6, int31n := fun _ => 0,
      TCPAddrFromAddrPort := fun _ => { IP := [], Port := 0, Zone := [] } }
    { tnet := deadNet, systemDNS := true } (ascii "example.org") [ascii "localhost"] rfl
    (by decide)
  rw [h1] at h2
  cases h2

/-- C5, amended: when the lookup succeeds with a list of which at least one
entry parses as an IP literal, `ResolveAddrWithContext` succeeds whatever the
draws of the shuffle, and the address it returns is the parse of some entry of
the lookup result. -/
theorem ResolveAddrWithContext_some_entry (host : Host) (d : VirtualTun) (name : GoString)
    (addrs : List GoString) (hl : LookupAddr host d name = .ok addrs)
    (hp : ∃ s ∈ addrs, parses (host.ParseAddr s) = true) :
    ∃ a s, s ∈ addrs ∧ host.ParseAddr s = .ok a ∧
      ResolveAddrWithContext host d name = .ok a := by
  obtain ⟨s0, hs0, hp0⟩ := hp
  have hne : addrs ≠ [] := List.ne_nil_of_mem hs0
  have hperm := Shuffle_perm host.int31n addrs.length addrs
  cases hf : (Shuffle host.int31n addrs.length addrs).find?
      (fun x => parses (host.ParseAddr x)) with
  | none =>
    have := List.find?_eq_none.mp hf s0 (hperm.mem_iff.mpr hs0)
    simp [hp0] at this
  | some s =>
    obtain ⟨a, h1, h2⟩ := scanAddrs_first host.ParseAddr _ (Addr.zero, none) hf
    exact ⟨a, s, hperm.mem_iff.mp (List.mem_of_find?_eq_some hf), h1,
      by rw [ResolveAddrWithContext_eq hl hne, h2]⟩

theorem ResolveAddrWithContext_some_entry_witness :
    ∃ a s, s ∈ [ascii "192.0.2.1", ascii "localhost"] ∧
      (sampleHost [ascii "192.0.2.1", ascii "localhost"] 1).ParseAddr s = .ok a ∧
      ResolveAddrWithContext (sampleHost [ascii "192.0.2.1", ascii "localhost"] 1)
        { tnet := deadNet, systemDNS := true } (ascii "example.org") = .ok a :=
  ResolveAddrWithContext_some_entry (sampleHost [ascii "192.0.2.1", ascii "localhost"] 1)
    { tnet := deadNet, systemDNS := true } (ascii "example.org")
    [ascii "192.0.2.1", ascii "localhost"] rfl
    ⟨ascii "192.0.2.1", by decide, by rfl⟩

/-- C6: when the lookup succeeds with an empty list, `ResolveAddrWithContext`
fails with the error "no address found for: " followed by the name; when the
lookup fails, it fails with that same error. -/
theorem ResolveAddrWithContext_no_address (host : Host) (d : VirtualTun) (name : GoString) :
    (LookupAddr host d name = .ok [] →
      ResolveAddrWithContext host d name =
        .error (.errorString (ascii "no address found for: " ++ name))) ∧
    (∀ err, LookupAddr host d name = .error err →
      ResolveAddrWithContext host d name = .error err) := by
  constructor
  · intro h
    unfold ResolveAddrWithContext
    rw [h]
    rfl
  · intro err h
    unfold ResolveAddrWithContext
    rw [h]

theorem ResolveAddrWithContext_no_address_witness :
    ResolveAddrWithContext (sampleHost [] 0) { tnet := deadNet, systemDNS := true }
        (ascii "example.org") =
      .error (.errorString (ascii "no address found for: " ++ ascii "example.org")) ∧
    ResolveAddrWithContext (sampleHost [] 0) { tnet := deadNet, systemDNS := false }
        (ascii "example.org") = .error (.external 1) :=
  ⟨(ResolveAddrWithContext_no_address (sampleHost [] 0) { tnet := deadNet, systemDNS := true }
      (ascii "example.org")).1 rfl,
    (ResolveAddrWithContext_no_address (sampleHost [] 0) { tnet := deadNet, systemDNS := false }
      (ascii "example.org")).2 _ rfl⟩

/-- C7: on a non-empty lookup result, whatever the draws of the shuffle,
`ResolveAddrWithContext` returns the parse of the first entry of the shuffled
list that parses; when no entry parses it fails with the parse error of the last
entry of the shuffled list; whether it succeeds is the same for any two
sequences of draws. -/
theorem ResolveAddrWithContext_first_parsable (host : Host) (d : VirtualTun)
    (name : GoString) (addrs : List GoString)
    (hl : LookupAddr host d name = .ok addrs) (hne : addrs ≠ []) :
    (∀ s, (Shuffle host.int31n addrs.length addrs).find? (fun x => parses (host.ParseAddr x))
        = some s →
      ∃ a, host.ParseAddr s = .ok a ∧ ResolveAddrWithContext host d name = .ok a) ∧
    ((Shuffle host.int31n addrs.length addrs).find? (fun x => parses (host.ParseAddr x))
        = none →
      ∃ e, host.ParseAddr ((Shuffle host.int31n addrs.length addrs).getLast
          (Shuffle_ne_nil hne)) = .error e ∧
        ResolveAddrWithContext host d name = .error e) ∧
    (∀ draw : Nat → Nat,
      parses (ResolveAddrWithContext { host with int31n := draw } d name) =
        parses (ResolveAddrWithContext host d name)) := by
  have first : ∀ (h : Host) (hl : LookupAddr h d name = .ok addrs) (s : GoString),
      (Shuffle h.int31n addrs.length addrs).find? (fun x => parses (h.ParseAddr x)) = some s →
      ∃ a, h.ParseAddr s = .ok a ∧ ResolveAddrWithContext h d name = .ok a := by
    intro h hl s hs
    obtain ⟨a, h1, h2⟩ := scanAddrs_first h.ParseAddr _ (Addr.zero, none) hs
    exact ⟨a, h1, by rw [ResolveAddrWithContext_eq hl hne, h2]⟩
  have last : ∀ (h : Host) (hl : LookupAddr h d name = .ok addrs),
      (Shuffle h.int31n addrs.length addrs).find? (fun x => parses (h.ParseAddr x)) = none →
      ∃ e, h.ParseAddr ((Shuffle h.int31n addrs.length addrs).getLast
          (Shuffle_ne_nil hne)) = .error e ∧ ResolveAddrWithContext h d name = .error e := by
    intro h hl hs
    obtain ⟨e, h1, h2⟩ := scanAddrs_none h.ParseAddr _ (Addr.zero, none) (Shuffle_ne_nil hne) hs
    exact ⟨e, h1, by rw [ResolveAddrWithContext_eq hl hne, h2]⟩
  have key : ∀ (h : Host) (hl : LookupAddr h d name = .ok addrs),
      parses (ResolveAddrWithContext h d name) = addrs.any (fun x => parses (h.ParseAddr x)) := by
    intro h hl
    cases hf : (Shuffle h.int31n addrs.length addrs).find? (fun x => parses (h.ParseAddr x)) with
    | some s =>
      obtain ⟨a, h1, h2⟩ := first h hl s hf
      rw [h2]
      symm
      simp only [parses, List.any_eq_true]
      exact ⟨s, (Shuffle_perm _ _ _).mem_iff.mp (List.mem_of_find?_eq_some hf), by rw [h1]⟩
    | none =>
      obtain ⟨e, h1, h2⟩ := last h hl hf
      rw [h2]
      symm
      simp only [parses]
      rw [List.any_eq_false]
      intro x hx
      have := List.find?_eq_none.mp hf x ((Shuffle_perm _ _ _).mem_iff.mpr hx)
      simpa using this
  refine ⟨first host hl, last host hl, ?_⟩
  intro draw
  rw [key host hl, key { host with int31n := draw } hl]

theorem ResolveAddrWithContext_first_parsable_witness :
    ∃ a, (sampleHost [ascii "localhost", ascii "192.0.2.1"] 0).ParseAddr (ascii "192.0.2.1")
        = .ok a ∧
      ResolveAddrWithContext (sampleHost [ascii "localhost", ascii "192.0.2.1"] 0)
        { tnet := deadNet, systemDNS := true } (ascii "example.org") = .ok a :=
  (ResolveAddrWithContext_first_parsable
    (sampleHost [ascii "localhost", ascii "192.0.2.1"] 0)
    { tnet := deadNet, systemDNS := true } (ascii "example.org")
    [ascii "localhost", ascii "192.0.2.1"] rfl (by decide)).1 (ascii "192.0.2.1") (by rfl)

/-! ## The forwarder and the handlers -/

/-- C8: whatever the copy does and returns (end of stream, read error, write
error), and whether or not a stream was closed before, `connForward` with a
positive buffer size returns normally, with no error value, and both `from` and
`to` are closed afterwards. -/
theorem connForward_closes_both
    (copyBuffer : World → Nat → Nat → Nat → World × Option Err)
    (w : World) (bufSize : Int) (from_ to_ : Nat) (hpos : 0 < bufSize) :
    ∃ w', connForward copyBuffer w bufSize from_ to_ = some w' ∧
      w'.closed from_ = true ∧ w'.closed to_ = true := by
  unfold connForward
  rw [if_neg (by omega), if_neg (by omega)]
  refine ⟨_, rfl, ?_, ?_⟩
  · simp [Close]
  · simp [Close]

theorem connForward_closes_both_witness :
    ∃ w', connForward (fun w _ _ _ => (w, some (.external 4))) openWorld 1024 5 7 = some w' ∧
      w'.closed 5 = true ∧ w'.closed 7 = true :=
  connForward_closes_both (fun w _ _ _ => (w, some (.external 4))) openWorld 1024 5 7
    (by decide)

/-- Neither handler calls `Close`: the set of closed streams is the same before
and after, whatever the outcome of resolving and dialling. -/
theorem handlers_close_nothing (host : Host) (w : World) (vt : VirtualTun)
    (raddr : addressPort) (conn : Nat) :
    (tcpClientForward host w vt raddr conn).closed = w.closed ∧
      (tcpServerForward host w vt raddr conn).closed = w.closed := by
  constructor
  · unfold tcpClientForward
    cases resolveToAddrPort host vt raddr with
    | error err => rfl
    | ok target =>
      simp only
      cases vt.tnet.DialTCP (host.TCPAddrFromAddrPort target) with
      | error err => rfl
      | ok sconn => rfl
  · unfold tcpServerForward
    cases resolveToAddrPort host vt raddr with
    | error err => rfl
    | ok target =>
      simp only
      cases host.DialTCP (host.TCPAddrFromAddrPort target) with
      | error err => rfl
      | ok sconn => rfl

/-- C9 on the code: with a failing resolution (the netstack resolver fails) and
with a failing dial (resolution succeeds, the dial fails), both handlers return
without starting a goroutine, and the accepted connection 7, open before, is
still open: the handlers log the error and return without closing it. -/
theorem handlers_leave_connection_open :
    ((tcpClientForward (sampleHost [] 0) openWorld { tnet := deadNet, systemDNS := false }
        { address := ascii "example.org", port := 80 } 7).closed 7 = false ∧
      (tcpClientForward (sampleHost [] 0) openWorld { tnet := deadNet, systemDNS := false }
        { address := ascii "example.org", port := 80 } 7).goroutines = []) ∧
    ((tcpServerForward (sampleHost [] 0) openWorld { tnet := deadNet, systemDNS := false }
        { address := ascii "example.org", port := 80 } 7).closed 7 = false ∧
      (tcpServerForward (sampleHost [] 0) openWorld { tnet := deadNet, systemDNS := false }
        { address := ascii "example.org", port := 80 } 7).goroutines = []) ∧
    ((tcpClientForward (sampleHost [ascii "192.0.2.1"] 0) openWorld
        { tnet := deadNet, systemDNS := true }
        { address := ascii "example.org", port := 80 } 7).closed 7 = false ∧
      (tcpClientForward (sampleHost [ascii "192.0.2.1"] 0) openWorld
        { tnet := deadNet, systemDNS := true }
        { address := ascii "example.org", port := 80 } 7).errorLogger =
        [.clientTunnel (some { ip := { addr := 0xffffc0000201, z := .z4 }, port := 80 })
          (.external 2)]) ∧
    ((tcpServerForward (sampleHost [ascii "192.0.2.1"] 0) openWorld
        { tnet := deadNet, systemDNS := true }
        { address := ascii "example.org", port := 80 } 7).closed 7 = false ∧
      (tcpServerForward (sampleHost [ascii "192.0.2.1"] 0) openWorld
        { tnet := deadNet, systemDNS := true }
        { address := ascii "example.org", port := 80 } 7).goroutines = []) :=
  ⟨⟨rfl, rfl⟩, ⟨rfl, rfl⟩, ⟨rfl, rfl⟩, ⟨rfl, rfl⟩⟩

/-- C10: `handleBind` returns the error "bind isn't implemented", never nil; it
writes to no writer, starts no goroutine and closes no stream: only `logger`
receives a line. -/
theorem handleBind_not_implemented (w : World) (writer : Nat) (request : Request) :
    (handleBind w writer request).2 = some (.errorString bindMessage) ∧
      (handleBind w writer request).1.written = w.written ∧
      (handleBind w writer request).1.goroutines = w.goroutines ∧
      (handleBind w writer request).1.closed = w.closed ∧
      (handleBind w writer request).1.errorLogger = w.errorLogger :=
  ⟨rfl, rfl, rfl, rfl, rfl⟩

end Wireproxy
